import Mathlib

/-!
# Verification of the CT publisher core (publisher.go)

A shallow embedding of the certificate-transparency publisher: the SCT data
type, the structural signature check (CheckSignature), base64 wire
encoding/decoding of the submission payload and the SCT response
(UnmarshalJSON), the Retry-After backoff computation, and the per-log
retry loop of SubmitToCT driven by an abstract transport.

Bytes are modelled as `Nat` (well-formed bytes are < 256), strings as lists
of ASCII codes, and durations as `Int` nanoseconds with explicit 64-bit
wrap where Go's int64 arithmetic can overflow.
-/

namespace Publisher

/-- sctHashSHA256 tag constant from publisher.go. -/
def sctHashSHA256 : Nat := 4

/-- sctSigECDSA tag constant from publisher.go. -/
def sctSigECDSA : Nat := 3

/-- The signedCertificateTimestamp struct: version, log id bytes, timestamp,
extensions bytes and signature bytes. -/
structure signedCertificateTimestamp where
  SCTVersion : Nat
  LogID : List Nat
  Timestamp : Nat
  Extensions : List Nat
  Signature : List Nat
deriving DecidableEq, Repr

/-! ## Model of encoding/asn1 for the struct of two big.Int fields (R, S)

CheckSignature calls asn1.Unmarshal on the signature suffix with a target
struct holding two big.Int fields, i.e. a DER SEQUENCE of two INTEGERs.
The model below mirrors the stdlib parser at the depth this target type
exercises: parseTagAndLength (short and long length forms with DER
minimality checks), the truncation check of the declared length against the
available bytes, INTEGER parsing with the minimal-encoding check and
two's-complement value, and the stdlib's tolerance for extra bytes after
the last struct field inside the SEQUENCE. asn1.Unmarshal returns the
bytes that follow the SEQUENCE; CheckSignature treats a non-empty
remainder as trailing garbage. -/

/-- Big-endian value of a byte list (model of big.Int SetBytes). -/
def beVal (bs : List Nat) : Nat := bs.foldl (fun a b => a * 256 + b) 0

/-- Model of asn1 INTEGER parsing (parseBigInt plus the minimal-encoding
check): non-empty, no superfluous leading 0x00 or 0xff byte, value read as
two's-complement big-endian. -/
def derInt (bs : List Nat) : Option Int :=
  match bs with
  | [] => none
  | [b0] => some (if b0 < 0x80 then (b0 : Int) else (b0 : Int) - 256)
  | b0 :: b1 :: _ =>
    if (b0 = 0 ∧ b1 < 0x80) ∨ (b0 = 0xff ∧ 0x80 ≤ b1) then none
    else if b0 < 0x80 then some (beVal bs)
    else some ((beVal bs : Int) - (256 : Int) ^ bs.length)

/-- Long-form length accumulation of parseTagAndLength: reads the given
number of bytes, rejecting lengths of 2^23 or more, accumulated zero
prefixes, and (at the end) values below 0x80 that were owed the short
form. Returns the length and the unconsumed bytes. -/
def parseLongLength : Nat → Nat → List Nat → Option (Nat × List Nat)
  | 0, acc, rest => if acc < 0x80 then none else some (acc, rest)
  | n + 1, acc, rest =>
    match rest with
    | [] => none
    | b :: rest2 =>
      if 2 ^ 23 ≤ acc then none
      else if acc * 256 + b = 0 then none
      else parseLongLength n (acc * 256 + b) rest2

/-- The length part of parseTagAndLength: short form below 0x80, indefinite
form (0x80) rejected, otherwise long form over the declared number of
bytes. -/
def parseLength : List Nat → Option (Nat × List Nat)
  | [] => none
  | b :: rest =>
    if b < 0x80 then some (b, rest)
    else if b = 0x80 then none
    else parseLongLength (b - 0x80) 0 rest

/-- Model of parseTagAndLength: splits the identifier byte into class,
constructed bit and tag number, then reads the length. High-tag-number
identifiers (low five bits all set) are collapsed to failure: the caller
below only ever accepts the SEQUENCE and INTEGER tags, which such an
identifier can never match, so the overall parse fails either way. -/
def parseTagAndLength (bs : List Nat) : Option (Nat × Bool × Nat × Nat × List Nat) :=
  match bs with
  | [] => none
  | b :: rest =>
    let cls := b / 64
    let compound := b / 32 % 2 = 1
    let tag := b % 32
    if tag = 0x1f then none
    else
      match parseLength rest with
      | none => none
      | some (len, rest2) => some (cls, compound, tag, len, rest2)

/-- Parse one universal-class element of the expected tag and constructed
bit: header, then the declared length checked against the remaining bytes.
Returns the element content and the bytes after the element. -/
def parseElem (expTag : Nat) (expCompound : Bool) (bs : List Nat) :
    Option (List Nat × List Nat) :=
  match parseTagAndLength bs with
  | none => none
  | some (cls, compound, tag, len, rest) =>
    if cls ≠ 0 ∨ compound ≠ expCompound ∨ tag ≠ expTag then none
    else if rest.length < len then none
    else some (rest.take len, rest.drop len)

/-- Model of asn1.Unmarshal for a struct of two big.Int fields: a
constructed SEQUENCE whose content starts with two primitive INTEGERs
(bytes after the second integer inside the SEQUENCE are tolerated, as in
the stdlib). Returns R, S and the bytes following the SEQUENCE. -/
def asn1UnmarshalRS (bs : List Nat) : Option (Int × Int × List Nat) :=
  match parseElem 16 true bs with
  | none => none
  | some (content, rest) =>
    match parseElem 2 false content with
    | none => none
    | some (rBytes, content2) =>
      match derInt rBytes with
      | none => none
      | some r =>
        match parseElem 2 false content2 with
        | none => none
        | some (sBytes, _) =>
          match derInt sBytes with
          | none => none
          | some s => some (r, s, rest)

/-- The outcomes of CheckSignature, one constructor per return site. -/
inductive SigCheckResult where
  | ok
  | truncated
  | unsupportedHash (b : Nat)
  | unsupportedSig (b : Nat)
  | parseFailed
  | trailingGarbage
deriving DecidableEq, Repr

/-- CheckSignature from publisher.go: length below 4 is truncated, byte 0
must be the SHA-256 tag, byte 1 the ECDSA tag, the two declared-length
bytes are skipped unchecked, and the remainder must parse as the (R, S)
DER structure with nothing after it. -/
def checkSignature (sct : signedCertificateTimestamp) : SigCheckResult :=
  if sct.Signature.length < 4 then .truncated
  else if sct.Signature.getD 0 0 ≠ sctHashSHA256 then .unsupportedHash (sct.Signature.getD 0 0)
  else if sct.Signature.getD 1 0 ≠ sctSigECDSA then .unsupportedSig (sct.Signature.getD 1 0)
  else
    match asn1UnmarshalRS (sct.Signature.drop 4) with
    | none => .parseFailed
    | some (_, _, rest) => if 0 < rest.length then .trailingGarbage else .ok

example :
    checkSignature ⟨0, [], 0, [], [4, 3, 0, 8, 0x30, 6, 2, 1, 1, 2, 1, 2]⟩ = .ok := by
  decide

example :
    checkSignature ⟨0, [], 0, [], [4, 3, 0, 8, 0x30, 6, 2, 1, 1, 2, 1, 2, 9]⟩ =
      .trailingGarbage := by
  decide

example : checkSignature ⟨0, [], 0, [], [4, 3, 0]⟩ = .truncated := by decide

example : checkSignature ⟨0, [], 0, [], [5, 3, 0, 0, 7]⟩ = .unsupportedHash 5 := by decide

/-! ## Model of encoding/base64 StdEncoding

SubmitToCT builds its payload with base64.StdEncoding.EncodeToString and
UnmarshalJSON decodes wire fields with base64.StdEncoding.DecodeString.
Characters are modelled by their ASCII codes; the padding character has
code 61. -/

/-- The standard alphabet: index 0..63 to ASCII code. -/
def b64Char (n : Nat) : Nat :=
  if n < 26 then 65 + n
  else if n < 52 then 97 + (n - 26)
  else if n < 62 then 48 + (n - 52)
  else if n = 62 then 43
  else 47

/-- Inverse of the standard alphabet: ASCII code to index, none for a
character outside the alphabet (the padding character included). -/
def b64Index (c : Nat) : Option Nat :=
  if 65 ≤ c ∧ c ≤ 90 then some (c - 65)
  else if 97 ≤ c ∧ c ≤ 122 then some (c - 97 + 26)
  else if 48 ≤ c ∧ c ≤ 57 then some (c - 48 + 52)
  else if c = 43 then some 62
  else if c = 47 then some 63
  else none

/-- base64.StdEncoding.EncodeToString: three bytes become four alphabet
characters; a final one- or two-byte group is padded with 61. -/
def b64Encode : List Nat → List Nat
  | b0 :: b1 :: b2 :: rest =>
    b64Char (b0 / 4) :: b64Char (b0 % 4 * 16 + b1 / 16) ::
      b64Char (b1 % 16 * 4 + b2 / 64) :: b64Char (b2 % 64) :: b64Encode rest
  | [b0, b1] => [b64Char (b0 / 4), b64Char (b0 % 4 * 16 + b1 / 16), b64Char (b1 % 16 * 4), 61]
  | [b0] => [b64Char (b0 / 4), b64Char (b0 % 4 * 16), 61, 61]
  | [] => []

/-- base64.StdEncoding.DecodeString: the input must be a sequence of
four-character quanta; padding may only close the final quantum, in the
one- or two-character form. Returns none on any malformed input. -/
def b64Decode (cs : List Nat) : Option (List Nat) :=
  match cs with
  | [] => some []
  | c0 :: c1 :: c2 :: c3 :: rest =>
    match b64Index c0, b64Index c1 with
    | some i0, some i1 =>
      if c2 = 61 ∧ c3 = 61 ∧ rest = [] then some [i0 * 4 + i1 / 16]
      else if c3 = 61 ∧ rest = [] then
        match b64Index c2 with
        | some i2 => some [i0 * 4 + i1 / 16, i1 % 16 * 16 + i2 / 4]
        | none => none
      else
        match b64Index c2, b64Index c3 with
        | some i2, some i3 =>
          match b64Decode rest with
          | some bs =>
            some ((i0 * 4 + i1 / 16) :: (i1 % 16 * 16 + i2 / 4) :: (i2 % 4 * 64 + i3) :: bs)
          | none => none
        | _, _ => none
    | _, _ => none
  | _ => none

example : b64Encode [65, 66, 67] = [81, 85, 74, 68] := by decide
example : b64Decode [81, 85, 74, 68] = some [65, 66, 67] := by decide
example : b64Decode (b64Encode [250, 1]) = some [250, 1] := by decide
example : b64Decode [33, 33, 33, 33] = none := by decide

/-! ## Model of the SCT response decoder (UnmarshalJSON)

The wire object rawSignedCertificateTimestamp carries the log id,
signature and extensions as base64 strings. UnmarshalJSON decodes them in
that order, assigning each decoded field to the receiver before decoding
the next, and returns at the first failure — so a failure can leave the
receiver partially overwritten. The receiver threading below makes that
explicit: the function takes the pre-call receiver value and returns the
post-call value next to the error. -/

/-- The wire shape of an SCT response with the base64 fields still as
ASCII-code strings. -/
structure rawSignedCertificateTimestamp where
  Version : Nat
  LogID : List Nat
  Timestamp : Nat
  Signature : List Nat
  Extensions : List Nat
deriving DecidableEq, Repr

/-- The error labels of UnmarshalJSON, one per decode site. -/
inductive UnmarshalError where
  | logID
  | signature
  | extensions
deriving DecidableEq, Repr

/-- UnmarshalJSON after the initial JSON step: base64-decode LogID, then
Signature, then Extensions, each assigned to the receiver on success, then
copy Version and Timestamp. The first failure returns with the receiver as
mutated so far. -/
def unmarshalSCT (raw : rawSignedCertificateTimestamp)
    (sct : signedCertificateTimestamp) :
    signedCertificateTimestamp × Option UnmarshalError :=
  match b64Decode raw.LogID with
  | none => (sct, some .logID)
  | some lid =>
    let sct1 := { sct with LogID := lid }
    match b64Decode raw.Signature with
    | none => (sct1, some .signature)
    | some sig =>
      let sct2 := { sct1 with Signature := sig }
      match b64Decode raw.Extensions with
      | none => (sct2, some .extensions)
      | some ext =>
        ({ sct2 with SCTVersion := raw.Version, Timestamp := raw.Timestamp, Extensions := ext }, none)

/-! ## Model of the Retry-After backoff computation

Durations are Int nanoseconds. Go's strconv.Atoi is modelled with its
documented failure values: 0 for a syntax error and the clamped extreme of
int64 for a range error; the Bool marks success. The multiplication
time.Second * time.Duration(seconds) wraps as int64, and time.Sleep
treats a non-positive duration as an immediate return. -/

/-- One second in nanoseconds (time.Second). -/
def second : Int := 1000000000

/-- Two's-complement wrap of an Int into the int64 range. -/
def int64Wrap (n : Int) : Int := (n + 2 ^ 63) % 2 ^ 64 - 2 ^ 63

/-- time.Sleep semantics: the elapsed wait of a sleep, zero for a
non-positive duration. -/
def sleepTime (d : Int) : Int := max d 0

/-- Digit accumulation of strconv.Atoi: every character must be an ASCII
digit. -/
def goDigits : List Nat → Nat → Option Nat
  | [], acc => some acc
  | c :: rest, acc =>
    if 48 ≤ c ∧ c ≤ 57 then goDigits rest (acc * 10 + (c - 48)) else none

/-- The signed clamp of strconv.ParseInt at bit size 64: an in-range value
succeeds, an out-of-range one fails carrying the int64 extreme of its
sign. -/
def goAtoiSigned (neg : Bool) (n : Nat) : Int × Bool :=
  if neg then
    if (n : Int) ≤ 2 ^ 63 then (-(n : Int), true) else (-(2 ^ 63), false)
  else
    if (n : Int) < 2 ^ 63 then ((n : Int), true) else (2 ^ 63 - 1, false)

/-- Model of strconv.Atoi on an ASCII-code string: an optional sign (45 or
43) followed by at least one digit, all digits; out-of-int64-range values
are a failure that returns the clamped extreme, any other failure returns
0. The Bool is true exactly when parsing succeeded. -/
def goAtoi (s : List Nat) : Int × Bool :=
  match s with
  | [] => (0, false)
  | c :: rest =>
    let p := if c = 45 then (true, rest) else if c = 43 then (false, rest) else (false, s)
    match p.2, goDigits p.2 0 with
    | _ :: _, some n => goAtoiSigned p.1 n
    | _, _ => (0, false)

/-- The backoff chosen for a 408 or 503 response (SubmitToCT lines
156-161): start from the configured backoff; when the Retry-After header
is non-empty AND its Atoi parse FAILS, replace it by the parsed seconds
value times one second — the condition in the source tests err != nil, so
a successfully parsed header is ignored. The header string is the
ASCII-code list, empty meaning absent. -/
def retryBackoff (submissionBackoff : Int) (retryAfter : List Nat) : Int :=
  if retryAfter ≠ [] then
    let p := goAtoi retryAfter
    if p.2 = false then int64Wrap (second * p.1) else submissionBackoff
  else submissionBackoff

example : goAtoi [53] = (5, true) := by decide
example : goAtoi [97, 98] = (0, false) := by decide
example : retryBackoff (10 * second) [53] = 10 * second := by decide
example : retryBackoff (10 * second) [97] = 0 := by decide
example : retryBackoff (10 * second) [] = 10 * second := by decide

/-! ## Model of SubmitToCT

The transport is abstract: for each log index and attempt index it yields
either a postJSON error (request construction, network, body read or JSON
decode — the source handles all four through the single err != nil branch)
or a response with a status code, the Retry-After header value ([] when
absent) and the SCT that postJSON unmarshalled from the body.

The run is recorded as a trace of events — one attempt event per outbound
call, one wait event per time.Sleep with the slept duration — next to the
final result. The loop over attempts recurses on the remaining retry
budget: the source keeps a retries counter and breaks a retryable failure
when retries has reached SubmissionRetries, otherwise increments, sleeps
and continues; here the budget argument counts SubmissionRetries minus
retries, so budget 0 is exactly the break case. -/

/-- The four error returns of postJSON. SubmitToCT does not distinguish
them. -/
inductive PostErrKind where
  | reqErr
  | netErr
  | readErr
  | jsonDecodeErr
deriving DecidableEq, Repr

/-- What one call of postJSON produced for SubmitToCT. -/
inductive AttemptOutcome where
  | postErr (k : PostErrKind)
  | resp (status : Nat) (retryAfter : List Nat) (sct : signedCertificateTimestamp)
deriving DecidableEq, Repr

/-- Observable events of a run: an outbound attempt (log index, attempt
index within that log) or a sleep of the given duration. -/
inductive Ev where
  | attempt (log : Nat) (idx : Nat)
  | wait (d : Int)
deriving DecidableEq, Repr

/-- The error results of SubmitToCT, tagged with the index of the log being
processed when the error arose: the generic unable-to-submit error
produced when a log's retry loop ends without done (retries exhausted or a
fatal non-200/408/503 status), or a CheckSignature failure. -/
inductive SubmitError where
  | unableToSubmit (log : Nat)
  | sigError (log : Nat) (e : SigCheckResult)
deriving DecidableEq, Repr

/-- The configuration fields of CTConfig that SubmitToCT reads: the log
URIs, the retry bound and the parsed backoff duration (nanoseconds). -/
structure CTConfigM where
  logs : List (List Nat)
  submissionRetries : Nat
  submissionBackoff : Int
deriving DecidableEq, Repr

/-- The per-log retry loop of SubmitToCT. budget is SubmissionRetries
minus the current retries counter, i is the attempt index. A postJSON
error or a 408/503 status retries while budget remains — recording the
slept duration, the configured backoff for the former and the Retry-After
computation for the latter — and otherwise breaks with no result; any
other non-200 status breaks with no result at once; a 200 status returns
the SCT that postJSON decoded. -/
def runLog (backoff : Int) (tr : Nat → AttemptOutcome) (logIdx : Nat) :
    Nat → Nat → List Ev × Option signedCertificateTimestamp
  | 0, i =>
    match tr i with
    | .postErr _ => ([.attempt logIdx i], none)
    | .resp st _ sct =>
      if st = 408 ∨ st = 503 then ([.attempt logIdx i], none)
      else if st ≠ 200 then ([.attempt logIdx i], none)
      else ([.attempt logIdx i], some sct)
  | budget + 1, i =>
    match tr i with
    | .postErr _ =>
      let r := runLog backoff tr logIdx budget (i + 1)
      (.attempt logIdx i :: .wait backoff :: r.1, r.2)
    | .resp st ra sct =>
      if st = 408 ∨ st = 503 then
        let r := runLog backoff tr logIdx budget (i + 1)
        (.attempt logIdx i :: .wait (retryBackoff backoff ra) :: r.1, r.2)
      else if st ≠ 200 then ([.attempt logIdx i], none)
      else ([.attempt logIdx i], some sct)

/-- The loop over configured logs: run the retry loop for the log at index
i; a loop that ends without done returns the unable-to-submit error for
that log and stops; a decoded SCT whose CheckSignature fails returns that
error and stops; otherwise continue with the next log. The first argument
counts the logs still to process. -/
def submitLogs (cfg : CTConfigM) (tr : Nat → Nat → AttemptOutcome) :
    Nat → Nat → List Ev × Option SubmitError
  | 0, _ => ([], none)
  | remaining + 1, i =>
    let r := runLog cfg.submissionBackoff (tr i) i cfg.submissionRetries 0
    match r.2 with
    | none => (r.1, some (.unableToSubmit i))
    | some sct =>
      match checkSignature sct with
      | .ok =>
        let rest := submitLogs cfg tr remaining (i + 1)
        (r.1 ++ rest.1, rest.2)
      | e => (r.1, some (.sigError i e))

/-- SubmitToCT for a non-nil CT config: process every configured log in
order; the result is the event trace and the first error, none meaning
overall success. -/
def submitToCT (cfg : CTConfigM) (tr : Nat → Nat → AttemptOutcome) :
    List Ev × Option SubmitError :=
  submitLogs cfg tr cfg.logs.length 0

/-- The chain field of the submission payload built by SubmitToCT: exactly
the base64 encoding of the certificate's raw DER followed by the base64
encoding of the configured issuer DER. -/
def buildSubmissionChain (certRaw issuerDER : List Nat) : List (List Nat) :=
  [b64Encode certRaw, b64Encode issuerDER]

/-- Attempt events in a trace. -/
def countAttempts : List Ev → Nat
  | [] => 0
  | .attempt _ _ :: rest => countAttempts rest + 1
  | .wait _ :: rest => countAttempts rest

/-- Wait events in a trace. -/
def countWaits : List Ev → Nat
  | [] => 0
  | .attempt _ _ :: rest => countWaits rest
  | .wait _ :: rest => countWaits rest + 1

/-- The trace of a log whose every attempt fails retryably with the same
slept duration: attempts interleaved with n waits, a wait strictly between
two consecutive attempts and none after the last. -/
def retryTrace (logIdx : Nat) (d : Int) : Nat → Nat → List Ev
  | 0, i => [.attempt logIdx i]
  | n + 1, i => .attempt logIdx i :: .wait d :: retryTrace logIdx d n (i + 1)

example :
    submitToCT ⟨[[117]], 2, 7⟩ (fun _ _ => .postErr .netErr) =
      ([.attempt 0 0, .wait 7, .attempt 0 1, .wait 7, .attempt 0 2],
        some (.unableToSubmit 0)) := by
  decide

example :
    submitToCT ⟨[[117], [118]], 3, 7⟩
      (fun l _ =>
        if l = 0 then .resp 200 [] ⟨0, [], 0, [], [4, 3, 0, 8, 0x30, 6, 2, 1, 1, 2, 1, 2]⟩
        else .resp 451 [] ⟨0, [], 0, [], []⟩) =
      ([.attempt 0 0, .attempt 1 0], some (.unableToSubmit 1)) := by
  decide

/-! ## Theorems -/

/-- C10: CheckSignature is total over every signature byte sequence — the
length check comes before any byte access, so a signature shorter than 4
bytes is reported truncated without reading it, and on every input the
function returns success or one of the five error kinds. -/
theorem checkSignature_total (sct : signedCertificateTimestamp) :
    (sct.Signature.length < 4 → checkSignature sct = .truncated) ∧
    (checkSignature sct = .ok ∨ checkSignature sct = .truncated ∨
      checkSignature sct = .unsupportedHash (sct.Signature.getD 0 0) ∨
      checkSignature sct = .unsupportedSig (sct.Signature.getD 1 0) ∨
      checkSignature sct = .parseFailed ∨
      checkSignature sct = .trailingGarbage) := by
  constructor
  · intro h
    simp [checkSignature, h]
  · unfold checkSignature
    split_ifs with h1 h2 h3
    · exact Or.inr (Or.inl rfl)
    · exact Or.inr (Or.inr (Or.inl rfl))
    · exact Or.inr (Or.inr (Or.inr (Or.inl rfl)))
    · rcases hm : asn1UnmarshalRS (sct.Signature.drop 4) with _ | ⟨r, s, rest⟩
      · simp [hm]
      · simp only [hm]
        split_ifs with hr <;> simp

/-- Concrete instance of checkSignature_total: a two-byte signature is
reported truncated. -/
theorem checkSignature_total_witness :
    checkSignature ⟨0, [], 0, [], [1, 2]⟩ = .truncated :=
  (checkSignature_total ⟨0, [], 0, [], [1, 2]⟩).1 (by decide)

/-- C6: for a signature of length at least 4 whose byte 0 is not the
SHA-256 tag or whose byte 1 is not the ECDSA tag, CheckSignature fails
with the corresponding unsupported-algorithm error, and any other SCT
whose signature agrees on the first two bytes (whatever its remaining
bytes) yields the same result. -/
theorem checkSignature_unsupportedAlg
    (v ts v2 ts2 : Nat) (lid ext lid2 ext2 sig sig2 : List Nat)
    (h4 : 4 ≤ sig.length) (h4b : 4 ≤ sig2.length)
    (e0 : sig2.getD 0 0 = sig.getD 0 0) (e1 : sig2.getD 1 0 = sig.getD 1 0)
    (hbad : sig.getD 0 0 ≠ sctHashSHA256 ∨ sig.getD 1 0 ≠ sctSigECDSA) :
    (checkSignature ⟨v, lid, ts, ext, sig⟩ = .unsupportedHash (sig.getD 0 0) ∨
      checkSignature ⟨v, lid, ts, ext, sig⟩ = .unsupportedSig (sig.getD 1 0)) ∧
    checkSignature ⟨v2, lid2, ts2, ext2, sig2⟩ = checkSignature ⟨v, lid, ts, ext, sig⟩ := by
  have hl : ¬ sig.length < 4 := by omega
  have hl2 : ¬ sig2.length < 4 := by omega
  have e0n := e0
  have e1n := e1
  simp only [List.getD_eq_getElem?_getD] at e0n e1n
  by_cases h0 : sig.getD 0 0 = sctHashSHA256
  · have h1 : sig.getD 1 0 ≠ sctSigECDSA := hbad.resolve_left (fun hc => hc h0)
    have h0n := h0
    have h1n := h1
    simp only [List.getD_eq_getElem?_getD] at h0n h1n
    constructor
    · exact Or.inr (by simp [checkSignature, hl, h0n, h1n])
    · simp [checkSignature, hl, hl2, e0n, e1n, h0n, h1n]
  · have h0n := h0
    simp only [List.getD_eq_getElem?_getD] at h0n
    constructor
    · exact Or.inl (by simp [checkSignature, hl, h0n])
    · simp [checkSignature, hl, hl2, e0n, h0n]

/-- Concrete instance of checkSignature_unsupportedAlg: a wrong hash tag
fails identically for two signatures that differ from byte 2 on. -/
theorem checkSignature_unsupportedAlg_witness :
    (checkSignature ⟨0, [], 0, [], [5, 3, 0, 0]⟩ =
        .unsupportedHash (([5, 3, 0, 0] : List Nat).getD 0 0) ∨
      checkSignature ⟨0, [], 0, [], [5, 3, 0, 0]⟩ =
        .unsupportedSig (([5, 3, 0, 0] : List Nat).getD 1 0)) ∧
    checkSignature ⟨1, [7], 9, [8], [5, 3, 9, 9, 9]⟩ =
      checkSignature ⟨0, [], 0, [], [5, 3, 0, 0]⟩ :=
  checkSignature_unsupportedAlg 0 0 1 9 [] [] [7] [8] [5, 3, 0, 0] [5, 3, 9, 9, 9]
    (by decide) (by decide) (by decide) (by decide) (Or.inl (by decide))

/-- C9: decoding a wire response is not atomic on error — with a valid
base64 log id and a malformed base64 signature, UnmarshalJSON returns the
signature decode error after having already overwritten the receiver's
LogID, so the receiver is not the value it held before the call. -/
theorem unmarshalSCT_partial_mutation :
    unmarshalSCT ⟨0, [81, 85, 74, 68], 1, [33, 33, 33, 33], []⟩ ⟨0, [], 0, [], []⟩ =
      (⟨0, [65, 66, 67], 0, [], []⟩, some .signature) ∧
    (unmarshalSCT ⟨0, [81, 85, 74, 68], 1, [33, 33, 33, 33], []⟩ ⟨0, [], 0, [], []⟩).1 ≠
      ⟨0, [], 0, [], []⟩ := by
  decide

/-- A failed clamp carries an int64 extreme. -/
theorem goAtoiSigned_fail (neg : Bool) (n : Nat) (h : (goAtoiSigned neg n).2 = false) :
    (goAtoiSigned neg n).1 = 2 ^ 63 - 1 ∨ (goAtoiSigned neg n).1 = -(2 ^ 63) := by
  unfold goAtoiSigned at h ⊢
  split_ifs at h ⊢ with h1 h2 h3
  · exact Or.inr rfl
  · exact Or.inl rfl

/-- When strconv.Atoi fails, the value it hands back is 0 (syntax error)
or an int64 extreme (range error). -/
theorem goAtoi_fail_val (s : List Nat) (h : (goAtoi s).2 = false) :
    (goAtoi s).1 = 0 ∨ (goAtoi s).1 = 2 ^ 63 - 1 ∨ (goAtoi s).1 = -(2 ^ 63) := by
  rcases s with _ | ⟨c, rest⟩
  · exact Or.inl rfl
  · rw [goAtoi] at h ⊢
    set p := if c = 45 then (true, rest) else if c = 43 then (false, rest) else (false, c :: rest)
      with hp
    rcases hq : p.2 with _ | ⟨d, rest2⟩
    · simp only [hq] at h ⊢
      trivial
    · rcases hd : goDigits (d :: rest2) 0 with _ | n
      · simp only [hq, hd] at h ⊢
        trivial
      · simp only [hq, hd] at h ⊢
        exact Or.inr (goAtoiSigned_fail p.1 n h)

/-- C8: for a 408 or 503 response whose Retry-After header is present but
fails strconv.Atoi, the wait actually slept before the next attempt is 0 —
time.Second times the failure value of the parse, the non-zero clamped
range-error values wrapping in int64 to a non-positive duration that
time.Sleep ignores — not the configured backoff; an absent header keeps
the configured backoff. -/
theorem retryAfter_unparsable_zero (d : Int) (s : List Nat)
    (hne : s ≠ []) (hfail : (goAtoi s).2 = false) :
    sleepTime (retryBackoff d s) = 0 ∧ retryBackoff d [] = d := by
  refine ⟨?_, rfl⟩
  unfold retryBackoff
  rw [if_pos hne, if_pos hfail]
  rcases goAtoi_fail_val s hfail with h | h | h <;> rw [h] <;> decide

/-- Concrete instance of retryAfter_unparsable_zero: header abc sleeps 0
instead of the configured 10 seconds. -/
theorem retryAfter_unparsable_zero_witness :
    sleepTime (retryBackoff (10 * second) [97, 98, 99]) = 0 ∧
      retryBackoff (10 * second) [] = 10 * second :=
  retryAfter_unparsable_zero (10 * second) [97, 98, 99] (by decide) (by decide)

/-- C1 (the code against the claim): a 503 response carrying Retry-After 5
— which Atoi parses successfully — keeps the configured 10-second backoff
instead of waiting 5 seconds: the err != nil condition at line 158 uses
the parsed value only when parsing FAILED. The run below retries a 503
(header 5, one ASCII digit) and sleeps the configured backoff, never a
5-second one. -/
theorem retryAfter_parsed_ignored :
    goAtoi [53] = (5, true) ∧
    retryBackoff (10 * second) [53] = 10 * second ∧
    10 * second ≠ 5 * second ∧
    (submitToCT ⟨[[117]], 1, 10 * second⟩
        (fun _ a =>
          if a = 0 then .resp 503 [53] ⟨0, [], 0, [], []⟩
          else .resp 200 [] ⟨0, [], 0, [], [4, 3, 0, 8, 0x30, 6, 2, 1, 1, 2, 1, 2]⟩)).1 =
      [.attempt 0 0, .wait (10 * second), .attempt 0 1] := by
  refine ⟨by decide, by decide, by decide, ?_⟩
  decide

/-- The interleaved failure trace holds one more attempt than its wait
count. -/
theorem countAttempts_retryTrace (l : Nat) (d : Int) :
    ∀ (n i : Nat), countAttempts (retryTrace l d n i) = n + 1
  | 0, _ => rfl
  | n + 1, i => by
    have ih := countAttempts_retryTrace l d n (i + 1)
    simp only [retryTrace, countAttempts, ih]

/-- The interleaved failure trace holds exactly one wait per retry. -/
theorem countWaits_retryTrace (l : Nat) (d : Int) :
    ∀ (n i : Nat), countWaits (retryTrace l d n i) = n
  | 0, _ => rfl
  | n + 1, i => by
    have ih := countWaits_retryTrace l d n (i + 1)
    simp only [retryTrace, countWaits, ih]

/-- The interleaved failure trace ends on an attempt, never on a wait. -/
theorem retryTrace_last_attempt (l : Nat) (d : Int) :
    ∀ (n i : Nat), (retryTrace l d n i).getLast? = some (.attempt l (i + n))
  | 0, i => by simp [retryTrace]
  | n + 1, i => by
    have ih := retryTrace_last_attempt l d n (i + 1)
    rcases hn : retryTrace l d n (i + 1) with _ | ⟨e, t⟩
    · cases n <;> simp [retryTrace] at hn
    · rw [retryTrace, hn, List.getLast?_cons_cons, List.getLast?_cons_cons, ← hn, ih]
      simp only [Option.some.injEq, Ev.attempt.injEq, true_and]
      omega

/-- A log whose every attempt hits a postJSON error produces the
interleaved trace — budget + 1 attempts, a configured-backoff wait
strictly between consecutive attempts and none after the last — and no
SCT. -/
theorem runLog_allPostErr (b : Int) (tr : Nat → AttemptOutcome) (logIdx : Nat)
    (hfail : ∀ a, ∃ k, tr a = .postErr k) :
    ∀ (budget i : Nat), runLog b tr logIdx budget i = (retryTrace logIdx b budget i, none)
  | 0, i => by
    rcases hfail i with ⟨k, hk⟩
    simp [runLog, hk, retryTrace]
  | budget + 1, i => by
    rcases hfail i with ⟨k, hk⟩
    have ih := runLog_allPostErr b tr logIdx hfail budget (i + 1)
    simp [runLog, hk, retryTrace, ih]

/-- An attempt answered 200 ends the loop at once with the decoded SCT,
whatever retry budget remains. -/
theorem runLog_status200 (b : Int) (tr : Nat → AttemptOutcome) (logIdx i : Nat)
    (ra : List Nat) (sct : signedCertificateTimestamp) (h : tr i = .resp 200 ra sct) :
    ∀ budget, runLog b tr logIdx budget i = ([.attempt logIdx i], some sct) := by
  intro budget
  cases budget <;> simp [runLog, h]

/-- An attempt answered any status other than 200, 408 and 503 breaks the
loop at once with no SCT and no wait, whatever retry budget remains. -/
theorem runLog_fatalStatus (b : Int) (tr : Nat → AttemptOutcome) (logIdx i st : Nat)
    (ra : List Nat) (sct : signedCertificateTimestamp) (h : tr i = .resp st ra sct)
    (h408 : st ≠ 408) (h503 : st ≠ 503) (h200 : st ≠ 200) :
    ∀ budget, runLog b tr logIdx budget i = ([.attempt logIdx i], none) := by
  intro budget
  cases budget <;> simp [runLog, h, h408, h503, h200]

/-- When the first configured log exhausts its retries, the whole
submission stops there with the unable-to-submit error for log 0. -/
theorem submitLogs_firstFails (cfg : CTConfigM) (tr : Nat → Nat → AttemptOutcome)
    (hfail : ∀ a, ∃ k, tr 0 a = .postErr k) (m : Nat) :
    submitLogs cfg tr (m + 1) 0 =
      (retryTrace 0 cfg.submissionBackoff cfg.submissionRetries 0,
        some (.unableToSubmit 0)) := by
  have hr := runLog_allPostErr cfg.submissionBackoff (tr 0) 0 hfail cfg.submissionRetries 0
  simp [submitLogs, hr]

/-- C2: with maximum retry count N and a transport whose every call to the
first log fails with a transport error, SubmitToCT makes exactly N + 1
attempts to that log, sleeps exactly N configured-backoff waits — the
trace interleaves them strictly between consecutive attempts and ends on
an attempt, so none follows the final one — and returns the
retries-exhausted unable-to-submit error. -/
theorem submit_retries_exhausted (cfg : CTConfigM) (u : List Nat) (more : List (List Nat))
    (tr : Nat → Nat → AttemptOutcome) (hlogs : cfg.logs = u :: more)
    (hfail : ∀ a, ∃ k, tr 0 a = .postErr k) :
    submitToCT cfg tr =
      (retryTrace 0 cfg.submissionBackoff cfg.submissionRetries 0,
        some (.unableToSubmit 0)) ∧
    countAttempts (submitToCT cfg tr).1 = cfg.submissionRetries + 1 ∧
    countWaits (submitToCT cfg tr).1 = cfg.submissionRetries ∧
    (submitToCT cfg tr).1.getLast? = some (.attempt 0 cfg.submissionRetries) := by
  have hs : submitToCT cfg tr =
      (retryTrace 0 cfg.submissionBackoff cfg.submissionRetries 0,
        some (.unableToSubmit 0)) := by
    unfold submitToCT
    rw [hlogs, List.length_cons]
    exact submitLogs_firstFails cfg tr hfail more.length
  refine ⟨hs, ?_, ?_, ?_⟩ <;> rw [hs]
  · exact countAttempts_retryTrace 0 cfg.submissionBackoff cfg.submissionRetries 0
  · exact countWaits_retryTrace 0 cfg.submissionBackoff cfg.submissionRetries 0
  · simpa using retryTrace_last_attempt 0 cfg.submissionBackoff cfg.submissionRetries 0

/-- Concrete instance of submit_retries_exhausted with N = 2: three
attempts, two waits, error. -/
theorem submit_retries_exhausted_witness :
    submitToCT ⟨[[117]], 2, 7⟩ (fun _ _ => .postErr .netErr) =
      (retryTrace 0 7 2 0, some (.unableToSubmit 0)) ∧
    countAttempts (submitToCT ⟨[[117]], 2, 7⟩ (fun _ _ => .postErr .netErr)).1 = 2 + 1 ∧
    countWaits (submitToCT ⟨[[117]], 2, 7⟩ (fun _ _ => .postErr .netErr)).1 = 2 ∧
    (submitToCT ⟨[[117]], 2, 7⟩ (fun _ _ => .postErr .netErr)).1.getLast? =
      some (.attempt 0 2) :=
  submit_retries_exhausted ⟨[[117]], 2, 7⟩ [117] [] (fun _ _ => .postErr .netErr) rfl
    (fun _ => ⟨.netErr, rfl⟩)

/-- C3: when an earlier log succeeds with a well-formed SCT and a later
log answers the fatal status 451, SubmitToCT stops at that log: the whole
trace is one attempt to log 0 and one to log 1 — no log after the failing
one is attempted — and the single returned error is the unable-to-submit
error arising at log 1. -/
theorem submit_fatal_aborts (cfg : CTConfigM) (tr : Nat → Nat → AttemptOutcome)
    (l0 l1 : List Nat) (more : List (List Nat)) (hlogs : cfg.logs = l0 :: l1 :: more)
    (ra0 ra1 : List Nat) (sct0 sct1 : signedCertificateTimestamp)
    (h0 : tr 0 0 = .resp 200 ra0 sct0) (hsig : checkSignature sct0 = .ok)
    (h1 : tr 1 0 = .resp 451 ra1 sct1) :
    submitToCT cfg tr = ([.attempt 0 0, .attempt 1 0], some (.unableToSubmit 1)) := by
  have hr0 := runLog_status200 cfg.submissionBackoff (tr 0) 0 0 ra0 sct0 h0
    cfg.submissionRetries
  have hr1 := runLog_fatalStatus cfg.submissionBackoff (tr 1) 1 0 451 ra1 sct1 h1
    (by decide) (by decide) (by decide) cfg.submissionRetries
  simp [submitToCT, hlogs, submitLogs, hr0, hr1, hsig]

/-- Concrete instance of submit_fatal_aborts: three configured logs, the
second fatal, the third never attempted. -/
theorem submit_fatal_aborts_witness :
    submitToCT ⟨[[10], [11], [12]], 1, 7⟩
      (fun l _ =>
        if l = 0 then .resp 200 [] ⟨0, [], 0, [], [4, 3, 0, 8, 48, 6, 2, 1, 1, 2, 1, 2]⟩
        else if l = 1 then .resp 451 [] ⟨0, [], 0, [], []⟩
        else .resp 200 [] ⟨0, [], 0, [], [4, 3, 0, 8, 48, 6, 2, 1, 1, 2, 1, 2]⟩) =
      ([.attempt 0 0, .attempt 1 0], some (.unableToSubmit 1)) :=
  submit_fatal_aborts ⟨[[10], [11], [12]], 1, 7⟩ _ [10] [11] [[12]] rfl [] []
    ⟨0, [], 0, [], [4, 3, 0, 8, 48, 6, 2, 1, 1, 2, 1, 2]⟩ ⟨0, [], 0, [], []⟩
    (by decide) (by decide) (by decide)

/-- C4 (the code against the claim): a response body that fails JSON
decoding is NOT fatal for the attempt — postJSON hands the decode error
back through the same err != nil branch as transport failures, so the
attempt is retried. With retry count 1, a log whose body is always
malformed is attempted twice (a further attempt follows the decode error)
and what reaches the caller after exhaustion is the generic
unable-to-submit error, not a decode error. -/
theorem decodeErr_retried_cex :
    (submitToCT ⟨[[117]], 1, 5⟩ (fun _ _ => .postErr .jsonDecodeErr)).1 =
      [.attempt 0 0, .wait 5, .attempt 0 1] ∧
    countAttempts (submitToCT ⟨[[117]], 1, 5⟩ (fun _ _ => .postErr .jsonDecodeErr)).1 = 2 ∧
    (submitToCT ⟨[[117]], 1, 5⟩ (fun _ _ => .postErr .jsonDecodeErr)).2 =
      some (.unableToSubmit 0) := by
  decide

/-- C4 as amended: a malformed response body (JSON decode failure in
postJSON) is a retryable failure — with retry count N it is retried like a
transport error, N + 1 attempts in all, and after exhaustion the generic
unable-to-submit error is surfaced. -/
theorem decodeErr_retryable (cfg : CTConfigM) (u : List Nat) (more : List (List Nat))
    (tr : Nat → Nat → AttemptOutcome) (hlogs : cfg.logs = u :: more)
    (hfail : ∀ a, tr 0 a = .postErr .jsonDecodeErr) :
    submitToCT cfg tr =
      (retryTrace 0 cfg.submissionBackoff cfg.submissionRetries 0,
        some (.unableToSubmit 0)) ∧
    countAttempts (submitToCT cfg tr).1 = cfg.submissionRetries + 1 := by
  have hs : submitToCT cfg tr =
      (retryTrace 0 cfg.submissionBackoff cfg.submissionRetries 0,
        some (.unableToSubmit 0)) := by
    unfold submitToCT
    rw [hlogs, List.length_cons]
    exact submitLogs_firstFails cfg tr (fun a => ⟨.jsonDecodeErr, hfail a⟩) more.length
  refine ⟨hs, ?_⟩
  rw [hs]
  exact countAttempts_retryTrace 0 cfg.submissionBackoff cfg.submissionRetries 0

/-- Concrete instance of decodeErr_retryable with N = 3. -/
theorem decodeErr_retryable_witness :
    submitToCT ⟨[[118]], 3, 9⟩ (fun _ _ => .postErr .jsonDecodeErr) =
      (retryTrace 0 9 3 0, some (.unableToSubmit 0)) ∧
    countAttempts (submitToCT ⟨[[118]], 3, 9⟩ (fun _ _ => .postErr .jsonDecodeErr)).1 =
      3 + 1 :=
  decodeErr_retryable ⟨[[118]], 3, 9⟩ [118] [] (fun _ _ => .postErr .jsonDecodeErr) rfl
    (fun _ => rfl)

/-- Decoding inverts the alphabet on its 64 indices. -/
theorem b64Index_b64Char (n : Nat) (h : n < 64) : b64Index (b64Char n) = some n := by
  interval_cases n <;> decide

/-- The alphabet never emits the padding character. -/
theorem b64Char_ne_pad (n : Nat) (h : n < 64) : b64Char n ≠ 61 := by
  interval_cases n <;> decide

/-- Decoding one full encoded quantum recovers its three source bytes and
recurses on the remaining characters. -/
theorem b64Decode_encChunk (b0 b1 b2 : Nat) (cs : List Nat)
    (h0 : b0 < 256) (h1 : b1 < 256) (h2 : b2 < 256) :
    b64Decode (b64Char (b0 / 4) :: b64Char (b0 % 4 * 16 + b1 / 16) ::
        b64Char (b1 % 16 * 4 + b2 / 64) :: b64Char (b2 % 64) :: cs) =
      match b64Decode cs with
      | some bs => some (b0 :: b1 :: b2 :: bs)
      | none => none := by
  have i0 : b64Index (b64Char (b0 / 4)) = some (b0 / 4) := b64Index_b64Char _ (by omega)
  have i1 : b64Index (b64Char (b0 % 4 * 16 + b1 / 16)) = some (b0 % 4 * 16 + b1 / 16) :=
    b64Index_b64Char _ (by omega)
  have i2 : b64Index (b64Char (b1 % 16 * 4 + b2 / 64)) = some (b1 % 16 * 4 + b2 / 64) :=
    b64Index_b64Char _ (by omega)
  have i3 : b64Index (b64Char (b2 % 64)) = some (b2 % 64) := b64Index_b64Char _ (by omega)
  have n2 : b64Char (b1 % 16 * 4 + b2 / 64) ≠ 61 := b64Char_ne_pad _ (by omega)
  have n3 : b64Char (b2 % 64) ≠ 61 := b64Char_ne_pad _ (by omega)
  have e0 : b0 / 4 * 4 + (b0 % 4 * 16 + b1 / 16) / 16 = b0 := by omega
  have e1 : (b0 % 4 * 16 + b1 / 16) % 16 * 16 + (b1 % 16 * 4 + b2 / 64) / 4 = b1 := by omega
  have e2 : (b1 % 16 * 4 + b2 / 64) % 4 * 64 + b2 % 64 = b2 := by omega
  simp only [b64Decode, i0, i1, i2, i3, n2, n3, false_and, and_false, if_false, e0, e1, e2]

/-- Decoding the padded encoding of a two-byte tail recovers the bytes. -/
theorem b64Decode_encTail2 (b0 b1 : Nat) (h0 : b0 < 256) (h1 : b1 < 256) :
    b64Decode [b64Char (b0 / 4), b64Char (b0 % 4 * 16 + b1 / 16), b64Char (b1 % 16 * 4), 61] =
      some [b0, b1] := by
  have i0 : b64Index (b64Char (b0 / 4)) = some (b0 / 4) := b64Index_b64Char _ (by omega)
  have i1 : b64Index (b64Char (b0 % 4 * 16 + b1 / 16)) = some (b0 % 4 * 16 + b1 / 16) :=
    b64Index_b64Char _ (by omega)
  have i2 : b64Index (b64Char (b1 % 16 * 4)) = some (b1 % 16 * 4) :=
    b64Index_b64Char _ (by omega)
  have n2 : b64Char (b1 % 16 * 4) ≠ 61 := b64Char_ne_pad _ (by omega)
  have e0 : b0 / 4 * 4 + (b0 % 4 * 16 + b1 / 16) / 16 = b0 := by omega
  have e1 : (b0 % 4 * 16 + b1 / 16) % 16 * 16 + b1 % 16 * 4 / 4 = b1 := by omega
  simp only [b64Decode, i0, i1, i2, n2, false_and, if_false, and_true, if_true, e0, e1]

/-- Decoding the padded encoding of a one-byte tail recovers the byte. -/
theorem b64Decode_encTail1 (b0 : Nat) (h0 : b0 < 256) :
    b64Decode [b64Char (b0 / 4), b64Char (b0 % 4 * 16), 61, 61] = some [b0] := by
  have i0 : b64Index (b64Char (b0 / 4)) = some (b0 / 4) := b64Index_b64Char _ (by omega)
  have i1 : b64Index (b64Char (b0 % 4 * 16)) = some (b0 % 4 * 16) :=
    b64Index_b64Char _ (by omega)
  have e0 : b0 / 4 * 4 + b0 % 4 * 16 / 16 = b0 := by omega
  simp only [b64Decode, i0, i1, and_self, and_true, if_true, e0]

/-- base64 round trip: decoding the encoding of any byte list gives back
exactly that list. -/
theorem b64Decode_b64Encode :
    ∀ (bs : List Nat), (∀ b ∈ bs, b < 256) → b64Decode (b64Encode bs) = some bs
  | [], _ => rfl
  | [b0], h => b64Decode_encTail1 b0 (h b0 (by simp))
  | [b0, b1], h => b64Decode_encTail2 b0 b1 (h b0 (by simp)) (h b1 (by simp))
  | b0 :: b1 :: b2 :: rest, h => by
    have ih := b64Decode_b64Encode rest (fun b hb => h b (by simp [hb]))
    rw [b64Encode,
      b64Decode_encChunk b0 b1 b2 (b64Encode rest) (h b0 (by simp)) (h b1 (by simp))
        (h b2 (by simp)),
      ih]

/-- C7: the chain built by SubmitToCT holds exactly two base64 fields, the
end-entity certificate then the issuer certificate, and base64-decoding
each field yields exactly the original bytes. -/
theorem buildSubmissionChain_roundTrip (certRaw issuerDER : List Nat)
    (hc : ∀ b ∈ certRaw, b < 256) (hi : ∀ b ∈ issuerDER, b < 256) :
    (buildSubmissionChain certRaw issuerDER).length = 2 ∧
    b64Decode ((buildSubmissionChain certRaw issuerDER).getD 0 []) = some certRaw ∧
    b64Decode ((buildSubmissionChain certRaw issuerDER).getD 1 []) = some issuerDER :=
  ⟨rfl, b64Decode_b64Encode certRaw hc, b64Decode_b64Encode issuerDER hi⟩

/-- Concrete instance of buildSubmissionChain_roundTrip. -/
theorem buildSubmissionChain_roundTrip_witness :
    (buildSubmissionChain [1, 2, 250] [0]).length = 2 ∧
    b64Decode ((buildSubmissionChain [1, 2, 250] [0]).getD 0 []) = some [1, 2, 250] ∧
    b64Decode ((buildSubmissionChain [1, 2, 250] [0]).getD 1 []) = some [0] :=
  buildSubmissionChain_roundTrip [1, 2, 250] [0] (by decide) (by decide)

/-- The long length form reads only its declared count of bytes: bytes
appended to the input of a successful parse land in the remainder. -/
theorem parseLongLength_append (ex : List Nat) :
    ∀ (n acc : Nat) (bs : List Nat) (l : Nat) (r : List Nat),
      parseLongLength n acc bs = some (l, r) →
      parseLongLength n acc (bs ++ ex) = some (l, r ++ ex)
  | 0, acc, bs, l, r => by
    intro h
    rw [parseLongLength] at h ⊢
    split_ifs at h ⊢
    · simp only [Option.some.injEq, Prod.mk.injEq] at h
      obtain ⟨rfl, rfl⟩ := h
      rfl
  | n + 1, acc, bs, l, r => by
    intro h
    rcases bs with _ | ⟨b, bs2⟩
    · exact absurd h (by simp [parseLongLength])
    · simp only [parseLongLength, List.cons_append] at h ⊢
      split_ifs at h ⊢
      exact parseLongLength_append ex n (acc * 256 + b) bs2 l r h

/-- parseLength consumes only the header bytes it reads. -/
theorem parseLength_append (ex bs : List Nat) (l : Nat) (r : List Nat)
    (h : parseLength bs = some (l, r)) : parseLength (bs ++ ex) = some (l, r ++ ex) := by
  rcases bs with _ | ⟨b, rest⟩
  · exact absurd h (by simp [parseLength])
  · simp only [parseLength, List.cons_append] at h ⊢
    split_ifs at h ⊢
    · simp only [Option.some.injEq, Prod.mk.injEq] at h
      obtain ⟨rfl, rfl⟩ := h
      rfl
    · exact parseLongLength_append ex (b - 0x80) 0 rest l r h

/-- parseTagAndLength consumes only the identifier and length bytes. -/
theorem parseTagAndLength_append (ex bs : List Nat) (cls : Nat) (cmp : Bool)
    (tag len : Nat) (r : List Nat)
    (h : parseTagAndLength bs = some (cls, cmp, tag, len, r)) :
    parseTagAndLength (bs ++ ex) = some (cls, cmp, tag, len, r ++ ex) := by
  rcases bs with _ | ⟨b, rest⟩
  · exact absurd h (by simp [parseTagAndLength])
  · simp only [parseTagAndLength, List.cons_append] at h ⊢
    split_ifs at h ⊢
    rcases hl : parseLength rest with _ | ⟨len2, r2⟩ <;> simp only [hl] at h
    · exact absurd h (by simp)
    · simp only [parseLength_append ex rest len2 r2 hl]
      simp only [Option.some.injEq, Prod.mk.injEq] at h
      obtain ⟨rfl, rfl, rfl, rfl, rfl⟩ := h
      rfl

/-- parseElem consumes exactly the element it returns: appending bytes to
a successfully parsed input appends them to the returned remainder. -/
theorem parseElem_append (ex : List Nat) (t : Nat) (c : Bool) (bs content rest : List Nat)
    (h : parseElem t c bs = some (content, rest)) :
    parseElem t c (bs ++ ex) = some (content, rest ++ ex) := by
  unfold parseElem at h ⊢
  rcases htl : parseTagAndLength bs with _ | ⟨cls, cmp, tag, len, r⟩ <;> simp only [htl] at h
  · exact absurd h (by simp)
  · simp only [parseTagAndLength_append ex bs cls cmp tag len r htl]
    by_cases hg : cls ≠ 0 ∨ cmp ≠ c ∨ tag ≠ t
    · rw [if_pos hg] at h
      exact absurd h (by simp)
    · rw [if_neg hg] at h ⊢
      by_cases hlen : r.length < len
      · rw [if_pos hlen] at h
        exact absurd h (by simp)
      · rw [if_neg hlen] at h
        have hlen2 : ¬ (r ++ ex).length < len := by
          rw [List.length_append]
          omega
        rw [if_neg hlen2]
        simp only [Option.some.injEq, Prod.mk.injEq] at h
        obtain ⟨rfl, rfl⟩ := h
        rw [List.take_append_of_le_length (by omega),
          List.drop_append_of_le_length (by omega)]

/-- asn1.Unmarshal consumes exactly the SEQUENCE it parses: bytes appended
to a successfully parsed input reappear verbatim in the returned rest. -/
theorem asn1UnmarshalRS_append (bs ex : List Nat) (r s : Int) (rest : List Nat)
    (h : asn1UnmarshalRS bs = some (r, s, rest)) :
    asn1UnmarshalRS (bs ++ ex) = some (r, s, rest ++ ex) := by
  unfold asn1UnmarshalRS at h ⊢
  rcases h1 : parseElem 16 true bs with _ | ⟨content, rest0⟩ <;> simp only [h1] at h
  · exact absurd h (by simp)
  · simp only [parseElem_append ex 16 true bs content rest0 h1]
    rcases h2 : parseElem 2 false content with _ | ⟨rB, c2⟩ <;> simp only [h2] at h ⊢
    · exact absurd h (by simp)
    · rcases h3 : derInt rB with _ | rv <;> simp only [h3] at h ⊢
      · exact absurd h (by simp)
      · rcases h4 : parseElem 2 false c2 with _ | ⟨sB, c3⟩ <;> simp only [h4] at h ⊢
        · exact absurd h (by simp)
        · rcases h5 : derInt sB with _ | sv <;> simp only [h5] at h ⊢
          · exact absurd h (by simp)
          · simp only [Option.some.injEq, Prod.mk.injEq] at h
            obtain ⟨rfl, rfl, rfl⟩ := h
            rfl

/-- C5: an SCT signature made of the two expected algorithm-tag bytes, two
arbitrary declared-length bytes (skipped unchecked), and a DER (R, S)
structure with zero trailing bytes passes CheckSignature; the same
signature with one extra byte appended fails with the trailing-garbage
error. -/
theorem checkSignature_validDER (v ts a b c : Nat) (lid ext body : List Nat) (r s : Int)
    (hparse : asn1UnmarshalRS body = some (r, s, [])) :
    checkSignature ⟨v, lid, ts, ext, 4 :: 3 :: a :: b :: body⟩ = .ok ∧
    checkSignature ⟨v, lid, ts, ext, (4 :: 3 :: a :: b :: body) ++ [c]⟩ =
      .trailingGarbage := by
  have hl : ¬ ((4 : Nat) :: 3 :: a :: b :: body).length < 4 := by
    simp
  have hl2 : ¬ (((4 : Nat) :: 3 :: a :: b :: body) ++ [c]).length < 4 := by
    simp
  constructor
  · unfold checkSignature
    rw [if_neg hl, if_neg (by simp [sctHashSHA256]), if_neg (by simp [sctSigECDSA])]
    rw [show ((4 : Nat) :: 3 :: a :: b :: body).drop 4 = body from rfl]
    simp only [hparse]
    rfl
  · unfold checkSignature
    rw [if_neg hl2, if_neg (by simp [sctHashSHA256]), if_neg (by simp [sctSigECDSA])]
    rw [show (((4 : Nat) :: 3 :: a :: b :: body) ++ [c]).drop 4 = body ++ [c] from rfl]
    simp only [asn1UnmarshalRS_append body [c] r s [] hparse]
    rfl

/-- Concrete instance of checkSignature_validDER: SEQUENCE of INTEGER 1
and INTEGER 2, declared-length bytes 255 and 0 ignored. -/
theorem checkSignature_validDER_witness :
    checkSignature ⟨0, [], 0, [], 4 :: 3 :: 255 :: 0 :: [48, 6, 2, 1, 1, 2, 1, 2]⟩ = .ok ∧
    checkSignature
        ⟨0, [], 0, [], (4 :: 3 :: 255 :: 0 :: [48, 6, 2, 1, 1, 2, 1, 2]) ++ [9]⟩ =
      .trailingGarbage :=
  checkSignature_validDER 0 0 255 0 9 [] [] [48, 6, 2, 1, 1, 2, 1, 2] 1 2 (by decide)

end Publisher
